import Mathlib

/-!
A shallow embedding of the core of a small CSV-ingestion and table-query
engine (CSV parser with type coercion and statistics, a lightweight
DataFrame with project/group-by/sort, and a row-predicate builder), with
theorems checking the natural-language specification against it.

Modelling conventions:
* Python `None`/int/float/str cell values are the tagged union `Value`;
  floats are modelled as exact rationals (the special values `inf`/`nan`
  accepted by Python's `float()` are outside the model, and no claim
  touches them).
* Python dicts with string keys are association lists (`Row`); all rows
  exercised by the theorems have distinct keys, where dict and
  association-list semantics agree.
* The module-global mutable `stats` dictionary is threaded explicitly as
  a `Stats` value through every function that mutates it.
* Python comparisons that would raise `TypeError` (ordering values of
  mixed incomparable types) are totalised by an arbitrary rank order;
  theorems about sorting carry homogeneity hypotheses so that they only
  speak about inputs on which the source's behaviour is defined.
* Characters are treated at ASCII fidelity (e.g. `str.isdigit` is
  modelled as ASCII digits).
-/

/-- The tagged union of cell values produced by the coercer:
Python `None`, `int`, `float` (modelled as an exact rational), `str`. -/
inductive Value where
  | null : Value
  | int (i : Int) : Value
  | float (q : Rat) : Value
  | str (s : String) : Value
deriving DecidableEq, Repr

/-- A row: an ordered mapping from column name to value (a Python dict
with string keys, modelled as an association list). -/
abbrev Row := List (String × Value)

/-- `row.get(k)`: first binding of `k`, `none` when the key is absent. -/
def Row.get? (r : Row) (k : String) : Option Value :=
  match r with
  | [] => none
  | (k', v) :: rest => if k' = k then some v else Row.get? rest k

/-- `row[k]`: like `Row.get?` but a missing key is a `KeyError`. -/
def Row.getE (r : Row) (k : String) : Except String Value :=
  match r.get? k with
  | some v => Except.ok v
  | none => Except.error ("KeyError: " ++ k)

/-- The ordered key list of a row (Python `dict.keys()`). -/
def Row.keys (r : Row) : List String := r.map Prod.fst

/-- The global statistics counters of `csv_parser.py` (the `stats` dict),
threaded explicitly through the functions that mutate them. -/
@[ext]
structure Stats where
  total_rows : Nat
  total_fields : Nat
  num_nulls : Nat
  num_ints : Nat
  num_floats : Nat
  num_strings : Nat
  malformed_rows : Nat
  duplicates_removed : Nat
deriving DecidableEq, Repr

/-- The all-zero counter state (the initial value of the `stats` dict). -/
def statsZero : Stats := ⟨0, 0, 0, 0, 0, 0, 0, 0⟩

/-- Componentwise addition of counter states. -/
def Stats.add (a b : Stats) : Stats :=
  ⟨a.total_rows + b.total_rows, a.total_fields + b.total_fields,
   a.num_nulls + b.num_nulls, a.num_ints + b.num_ints,
   a.num_floats + b.num_floats, a.num_strings + b.num_strings,
   a.malformed_rows + b.malformed_rows,
   a.duplicates_removed + b.duplicates_removed⟩

instance : Add Stats := ⟨Stats.add⟩

/-! ### Models of the Python string primitives used by the source -/

/-- The whitespace characters removed by Python's `str.strip()` (ASCII). -/
def pyWhitespace (c : Char) : Bool :=
  c = ' ' || c = '\t' || c = '\n' || c = '\x0d' || c = '\x0b' || c = '\x0c'

/-- `str.strip()` on a character list. -/
def pyStripList (l : List Char) : List Char :=
  ((l.dropWhile pyWhitespace).reverse.dropWhile pyWhitespace).reverse

/-- `str.strip()`. -/
def pyStrip (s : String) : String := String.mk (pyStripList s.toList)

/-- `str.isdigit()` (ASCII): nonempty and all characters are digits. -/
def pyIsDigit (s : String) : Bool :=
  !s.toList.isEmpty && s.toList.all Char.isDigit

/-- ASCII lower-casing of one character. -/
def pyCharLower (c : Char) : Char :=
  if 'A' ≤ c ∧ c ≤ 'Z' then Char.ofNat (c.toNat + 32) else c

/-- `str.lower()` (ASCII). -/
def pyLower (s : String) : String := String.mk (s.toList.map pyCharLower)

/-- `str.endswith(t)` for a one-character suffix. -/
def pyEndsWith (s : String) (c : Char) : Bool := s.toList.getLast? = some c

/-- Python `str.split(sep)` for a one-character separator, on character
lists: empty parts are kept, the empty string yields one empty part. -/
def splitChar (sep : Char) : List Char → List (List Char)
  | [] => [[]]
  | c :: rest =>
      let r := splitChar sep rest
      if c = sep then [] :: r
      else
        match r with
        | h :: t => (c :: h) :: t
        | [] => [[c]]

/-- Python `str.split(sep)` for a one-character separator. -/
def pySplit (s : String) (sep : Char) : List String :=
  (splitChar sep s.toList).map String.mk

/-- Structural decidable equality for `Except` results. -/
instance {ε α : Type} [DecidableEq ε] [DecidableEq α] : DecidableEq (Except ε α) :=
  fun a b =>
    match a, b with
    | Except.ok x, Except.ok y =>
        if h : x = y then Decidable.isTrue (by rw [h]) else Decidable.isFalse (by simp [h])
    | Except.error x, Except.error y =>
        if h : x = y then Decidable.isTrue (by rw [h]) else Decidable.isFalse (by simp [h])
    | Except.ok _, Except.error _ => Decidable.isFalse (by simp)
    | Except.error _, Except.ok _ => Decidable.isFalse (by simp)

/-- Value of a digit-character list read in base 10. -/
def digitsToNat (l : List Char) : Nat :=
  l.foldl (fun acc c => acc * 10 + (c.toNat - 48)) 0

/-- Greedily consume the digit run `digit ('_' digit)*` after a first
digit already taken into `acc`; returns the digits (underscores removed)
and the unconsumed remainder.  Mirrors the PEP-515 rule that an
underscore is only valid between two digits. -/
def digitGroupAux : List Char → List Char → List Char × List Char
  | '_' :: c :: rest, acc =>
      if c.isDigit then digitGroupAux rest (acc ++ [c]) else (acc, '_' :: c :: rest)
  | c :: rest, acc =>
      if c.isDigit then digitGroupAux rest (acc ++ [c]) else (acc, c :: rest)
  | [], acc => (acc, [])

/-- Consume a leading digit group `digit ('_' digit)*`; fails when the
input does not start with a digit. -/
def parseDigitGroup : List Char → Option (List Char × List Char)
  | c :: rest => if c.isDigit then some (digitGroupAux rest [c]) else none
  | [] => none

/-- Python `int(s)` on a string: strip, optional sign, a digit group,
nothing left over; `none` models the `ValueError`. -/
def pyIntParse (s : String) : Option Int :=
  let l := pyStripList s.toList
  let signed : Bool × List Char :=
    match l with
    | '-' :: rest => (true, rest)
    | '+' :: rest => (false, rest)
    | l' => (false, l')
  match parseDigitGroup signed.2 with
  | some (ds, []) =>
      some (if signed.1 then -(digitsToNat ds : Int) else (digitsToNat ds : Int))
  | _ => none

/-- Python `float(s)` on a string, restricted to finite decimal and
scientific notation (the accepted `inf`/`nan` spellings are outside this
model): strip, optional sign, `digits [. digits]` or `. digits`, an
optional exponent, nothing left over.  `none` models the `ValueError`;
the result is the exact rational value of the literal. -/
def pyFloatParse (s : String) : Option Rat :=
  let l := pyStripList s.toList
  let signed : Bool × List Char :=
    match l with
    | '-' :: rest => (true, rest)
    | '+' :: rest => (false, rest)
    | l' => (false, l')
  let mant : Option (Nat × Nat × List Char) :=
    match parseDigitGroup signed.2 with
    | some (ds, rest) =>
        match rest with
        | '.' :: rest2 =>
            match parseDigitGroup rest2 with
            | some (fs, rest3) => some (digitsToNat (ds ++ fs), fs.length, rest3)
            | none => some (digitsToNat ds, 0, rest2)
        | _ => some (digitsToNat ds, 0, rest)
    | none =>
        match signed.2 with
        | '.' :: rest2 =>
            match parseDigitGroup rest2 with
            | some (fs, rest3) => some (digitsToNat fs, fs.length, rest3)
            | none => none
        | _ => none
  match mant with
  | none => none
  | some (n, flen, rest) =>
      let expPart : Option Int :=
        match rest with
        | [] => some 0
        | e :: rest2 =>
            if e = 'e' || e = 'E' then
              let esigned : Bool × List Char :=
                match rest2 with
                | '-' :: r => (true, r)
                | '+' :: r => (false, r)
                | r => (false, r)
              match parseDigitGroup esigned.2 with
              | some (es, []) =>
                  some (if esigned.1 then -(digitsToNat es : Int) else (digitsToNat es : Int))
              | _ => none
            else none
      match expPart with
      | none => none
      | some ex =>
          let num : Int := if signed.1 then -(n : Int) else (n : Int)
          some (if 0 ≤ ex then
                  mkRat (num * (10 : Int) ^ ex.toNat) ((10 : Nat) ^ flen)
                else
                  mkRat num ((10 : Nat) ^ (flen + (-ex).toNat)))

/-! ### csv_parser.py -/

/-- The `_NULLS` constant: strings considered null (compared against the
lower-cased trimmed token). -/
def NULLS : List String := ["", "na", "n/a", "null", "none"]

/-- The integer test of `_coerce`'s rule 2:
`t and (t.isdigit() or (t[0] == "-" and t[1:].isdigit()))`. -/
def isIntToken (t : String) : Bool :=
  !t.isEmpty &&
    (pyIsDigit t ||
      (match t.toList with
       | '-' :: rest => pyIsDigit (String.mk rest)
       | _ => false))

/-- `int(t)` on a token that passed `isIntToken` (optional minus sign,
then digits). -/
def intOfToken (t : String) : Int :=
  match t.toList with
  | '-' :: rest => -(digitsToNat rest : Int)
  | l => (digitsToNat l : Int)

/-- `_coerce(tok)`: trim, count the field, then null-alias set, integer
shape, float parse, else string — first match wins.  The mutation of the
global `stats` dict is threaded as the `Stats` argument and first result
component. -/
def _coerce (tok : String) (st : Stats) : Stats × Value :=
  let t := pyStrip tok
  let st1 := { st with total_fields := st.total_fields + 1 }
  if pyLower t ∈ NULLS then
    ({ st1 with num_nulls := st1.num_nulls + 1 }, Value.null)
  else if isIntToken t then
    ({ st1 with num_ints := st1.num_ints + 1 }, Value.int (intOfToken t))
  else
    match pyFloatParse t with
    | some q => ({ st1 with num_floats := st1.num_floats + 1 }, Value.float q)
    | none => ({ st1 with num_strings := st1.num_strings + 1 }, Value.str t)

/-- The scan loop of `_split_csv_line`: current characters, in-quotes
flag, accumulator of the current field, fields emitted so far.  The
`fuel` argument only makes the two-character escaped-quote lookahead
structurally recursive: every step consumes at least one character and
exactly one unit of fuel, so with initial fuel equal to the input
length the fuel branch of the base case is never reached on its own. -/
def splitCsvAux (delim : Char) : Nat → List Char → Bool → List Char → List String → List String
  | _, [], _, cur, fields => fields ++ [String.mk cur]
  | 0, _ :: _, _, cur, fields => fields ++ [String.mk cur]
  | fuel + 1, c :: rest, inQuotes, cur, fields =>
      if c = '"' then
        if inQuotes then
          match rest with
          | c2 :: rest2 =>
              if c2 = '"' then splitCsvAux delim fuel rest2 inQuotes (cur ++ ['"']) fields
              else splitCsvAux delim fuel rest (!inQuotes) cur fields
          | [] => splitCsvAux delim fuel rest (!inQuotes) cur fields
        else splitCsvAux delim fuel rest (!inQuotes) cur fields
      else if c = delim && !inQuotes then
        splitCsvAux delim fuel rest inQuotes [] (fields ++ [String.mk cur])
      else if c = '\n' && !inQuotes then
        splitCsvAux delim fuel rest inQuotes cur fields
      else
        splitCsvAux delim fuel rest inQuotes (cur ++ [c]) fields

/-- `_split_csv_line(line, delimiter)`. -/
def _split_csv_line (line : String) (delim : Char) : List String :=
  splitCsvAux delim line.toList.length line.toList false [] []

/-- `line.rstrip("\n")`. -/
def rstripNewlines (s : String) : String :=
  String.mk ((s.toList.reverse.dropWhile (· = '\n')).reverse)

/-- The per-row field coercion `{h: _coerce(v) for h, v in zip(header, parts)}`
(headers and parts have equal length at every call site; `zip` truncates
at the shorter list exactly as in Python). -/
def coerceRow : List String → List String → Stats → Stats × Row
  | h :: hs, v :: vs, st =>
      let p := _coerce v st
      let rest := coerceRow hs vs p.1
      (rest.1, (h, p.2) :: rest.2)
  | _, _, st => (st, [])

/-- The data-line loop of `read_csv`. -/
def readCsvAux (header : List String) (delim : Char) :
    List String → Stats → Stats × List Row
  | [], st => (st, [])
  | line :: rest, st =>
      let parts := _split_csv_line (rstripNewlines line) delim
      if parts.length ≠ header.length then
        readCsvAux header delim rest
          { st with malformed_rows := st.malformed_rows + 1 }
      else
        let p := coerceRow header parts st
        let q := readCsvAux header delim rest
          { p.1 with total_rows := p.1.total_rows + 1 }
        (q.1, p.2 :: q.2)

/-- `read_csv`: the input file as its list of lines (as produced by
Python's line iteration — a possible trailing `"\n"` per line is removed
by the source's `rstrip("\n")`).  First line is the header (tokenized,
not coerced); each subsequent line is tokenized, discarded as malformed
when its field count differs from the header's, and otherwise coerced
into a row. -/
def read_csv (lines : List String) (delim : Char) (st : Stats) : Stats × List Row :=
  match lines with
  | [] => (st, [])
  | headerLine :: rest =>
      let header := _split_csv_line (rstripNewlines headerLine) delim
      readCsvAux header delim rest st

/-! ### Python value comparison (used by row canonicalisation, grouping
and sorting).  Ordering of incomparable mixed types (where Python raises
`TypeError`) is totalised by the rank order below; every theorem about
sorting restricts itself to homogeneous inputs. -/

/-- Rank used only to totalise the order across incomparable types. -/
def valueRank : Value → Nat
  | .null => 0
  | .int _ => 1
  | .float _ => 1
  | .str _ => 2

/-- Numeric content of an int/float value. -/
def valueToRat : Value → Rat
  | .int i => (i : Rat)
  | .float q => q
  | _ => 0

/-- Python `<` on values: numeric comparison across int/float, lexicographic
on strings; incomparable pairs fall back to the rank order. -/
def valueLt (a b : Value) : Bool :=
  match a, b with
  | .int i, .int j => decide (i < j)
  | .int i, .float q => decide ((i : Rat) < q)
  | .float q, .int j => decide (q < (j : Rat))
  | .float p, .float q => decide (p < q)
  | .str s, .str t => decide (s < t)
  | a, b => decide (valueRank a < valueRank b)

/-- Python `==` on values: `None == None`, numeric equality across
int/float, string equality; `False` across different kinds. -/
def valueEqPy (a b : Value) : Bool :=
  match a, b with
  | .null, .null => true
  | .int i, .int j => decide (i = j)
  | .int i, .float q => decide ((i : Rat) = q)
  | .float q, .int j => decide (q = (j : Rat))
  | .float p, .float q => decide (p = q)
  | .str s, .str t => decide (s = t)
  | _, _ => false

/-- Python `<` on `(key, value)` pairs (tuple comparison: equality first,
then `<` on the first differing component). -/
def pairLt (a b : String × Value) : Bool :=
  if a.1 = b.1 then (if valueEqPy a.2 b.2 then false else valueLt a.2 b.2)
  else decide (a.1 < b.1)

/-- The non-strict Python-order relation on pairs (`a` may stay before
`b` iff `b` is not strictly smaller). -/
def pairLe (a b : String × Value) : Prop := pairLt b a = false

instance : DecidableRel pairLe :=
  fun a b => inferInstanceAs (Decidable (pairLt b a = false))

/-- `tuple(sorted(row.items()))`: the canonical duplicate-detection key of
a row.  Python's `sorted` is a stable sort with respect to a total
preorder, which determines it uniquely; it is modelled by a stable
insertion sort. -/
def canonRow (r : Row) : Row := List.insertionSort pairLe r

/-- The loop of `remove_duplicates`: `seen` holds the canonical keys met
so far; a repeated key increments the duplicate counter, a new key keeps
the row. -/
def removeDupAux (seen : List Row) (st : Stats) : List Row → Stats × List Row
  | [] => (st, [])
  | r :: rest =>
      let key := canonRow r
      if key ∈ seen then
        removeDupAux seen
          { st with duplicates_removed := st.duplicates_removed + 1 } rest
      else
        let p := removeDupAux (key :: seen) st rest
        (p.1, r :: p.2)

/-- `remove_duplicates(rows)`: keep the first occurrence of each
duplicate group (by canonical key equality), in original order. -/
def remove_duplicates (rows : List Row) (st : Stats) : Stats × List Row :=
  removeDupAux [] st rows

/-! ### dataframe.py -/

/-- The `DataFrame` class: rows plus the column schema inferred at
construction from the first row (empty schema for an empty row list). -/
structure DataFrame where
  rows : List Row
  columns : List String
deriving DecidableEq, Repr

/-- `DataFrame(rows)`: `self.columns = list(rows[0].keys()) if rows else []`. -/
def DataFrame.ofRows (rows : List Row) : DataFrame :=
  ⟨rows, match rows with | [] => [] | r :: _ => r.keys⟩

/-- The check loop of `project`: raise at the first requested column that
is not in the schema. -/
def checkColumns (schema : List String) : List String → Except String Unit
  | [] => Except.ok ()
  | c :: cs =>
      if schema.contains c then checkColumns schema cs
      else Except.error ("Column '" ++ c ++ "' not found in dataset.")

/-- `{col: row[col] for col in columns}` (a missing key is a `KeyError`). -/
def projectRow (cols : List String) (r : Row) : Except String Row :=
  match cols with
  | [] => Except.ok []
  | c :: cs => do
      let v ← r.getE c
      let rest ← projectRow cs r
      pure ((c, v) :: rest)

/-- `DataFrame.project(columns)`: validate every requested column against
the schema (failing before touching any row), then build the projected
rows. -/
def DataFrame.project (df : DataFrame) (cols : List String) : Except String DataFrame := do
  let _ ← checkColumns df.columns cols
  let projected ← df.rows.mapM (projectRow cols)
  pure (DataFrame.ofRows projected)

/-- `isinstance(v, (int, float))`. -/
def isNumeric : Value → Bool
  | .int _ => true
  | .float _ => true
  | _ => false

/-- Append a row to its group, keyed by Python equality of the group-key
value; a new key opens a new group at the end (insertion order of a
`defaultdict`). -/
def insertGroup (key : Value) (r : Row) : List (Value × List Row) → List (Value × List Row)
  | [] => [(key, [r])]
  | (k, rs) :: rest =>
      if valueEqPy k key then (k, rs ++ [r]) :: rest
      else (k, rs) :: insertGroup key r rest

/-- The grouping loop of `group_by`: `groups[row[group_col]].append(row)`,
groups in first-seen key order. -/
def buildGroups (groupCol : String) :
    List Row → List (Value × List Row) → Except String (List (Value × List Row))
  | [], acc => Except.ok acc
  | r :: rest, acc => do
      let k ← r.getE groupCol
      buildGroups groupCol rest (insertGroup k r acc)

/-- `[r[col] for r in rows if isinstance(r[col], (int, float))]`. -/
def numericValues (col : String) : List Row → Except String (List Value)
  | [] => Except.ok []
  | r :: rest => do
      let v ← r.getE col
      let vs ← numericValues col rest
      pure (if isNumeric v then v :: vs else vs)

/-- Python `sum(values)`: stays `int` when every contribution is an
`int`, becomes a float as soon as one is. -/
def sumValues (vs : List Value) : Value :=
  if vs.all (fun v => match v with | .int _ => true | _ => false) then
    Value.int (vs.foldl (fun acc v => acc + (match v with | .int i => i | _ => 0)) 0)
  else
    Value.float (vs.foldl (fun acc v => acc + valueToRat v) 0)

/-- `statistics.mean(values)`: the exact arithmetic mean, as a float. -/
def meanValues (vs : List Value) : Value :=
  Value.float ((vs.foldl (fun acc v => acc + valueToRat v) 0) / (vs.length : Rat))

/-- Python `max(values)`: first maximal element (a later element replaces
the current one only when strictly greater). -/
def maxValues (vs : List Value) : Value :=
  match vs with
  | [] => Value.null
  | v :: rest => rest.foldl (fun acc w => if valueToRat acc < valueToRat w then w else acc) v

/-- Python `min(values)`: first minimal element. -/
def minValues (vs : List Value) : Value :=
  match vs with
  | [] => Value.null
  | v :: rest => rest.foldl (fun acc w => if valueToRat w < valueToRat acc then w else acc) v

/-- The aggregation dispatch of `group_by` on a nonempty numeric value
list: the five supported kinds, every other kind raises
`Unsupported aggregation`. -/
def applyAgg (func : String) (vs : List Value) : Except String Value :=
  if func = "avg" then Except.ok (meanValues vs)
  else if func = "sum" then Except.ok (sumValues vs)
  else if func = "max" then Except.ok (maxValues vs)
  else if func = "min" then Except.ok (minValues vs)
  else if func = "count" then Except.ok (Value.int vs.length)
  else Except.error ("Unsupported aggregation: " ++ func)

/-- The per-group aggregation loop: a column with no numeric contributors
aggregates to Null (the unknown-kind check is only reached when the
value list is nonempty, exactly as in the source). -/
def aggColumns (rows : List Row) : List (String × String) → Except String Row
  | [] => Except.ok []
  | (col, func) :: rest => do
      let vs ← numericValues col rows
      if vs.isEmpty then
        let tail ← aggColumns rows rest
        pure ((col, Value.null) :: tail)
      else
        let v ← applyAgg func vs
        let tail ← aggColumns rows rest
        pure ((col, v) :: tail)

/-- The result loop of `group_by`: one output row per group, the group
key first, then the aggregated columns. -/
def groupResults (groupCol : String) (aggMap : List (String × String)) :
    List (Value × List Row) → Except String (List Row)
  | [] => Except.ok []
  | g :: gs => do
      let aggs ← aggColumns g.2 aggMap
      let rest ← groupResults groupCol aggMap gs
      pure ((((groupCol, g.1) : String × Value) :: aggs) :: rest)

/-- `DataFrame.group_by(group_col, agg_map)`. -/
def DataFrame.group_by (df : DataFrame) (groupCol : String)
    (aggMap : List (String × String)) : Except String DataFrame := do
  let groups ← buildGroups groupCol df.rows []
  let result ← groupResults groupCol aggMap groups
  pure (DataFrame.ofRows result)

/-- `r[col]` as used by the sort key.  The source would raise `KeyError`
on a row missing the column; theorems about sorting assume the column is
present in every row, where this total version agrees with the source. -/
def Row.getV (r : Row) (k : String) : Value := (r.get? k).getD Value.null

/-- The sort key `(r[col] is None, r[col])`. -/
def sortKey (col : String) (r : Row) : Bool × Value :=
  (decide (Row.getV r col = Value.null), Row.getV r col)

/-- Python `<` on sort keys (tuple comparison). -/
def keyLt (a b : Bool × Value) : Bool :=
  if a.1 = b.1 then (if valueEqPy a.2 b.2 then false else valueLt a.2 b.2)
  else (!a.1 && b.1)

/-- The row order used by `sort_by`: `r` may stay before `s` iff the key
that has to come first under the requested direction is not strictly the
other one's (with `reverse=True` the order is reversed but equal keys
keep their original relative order, Python's documented behaviour). -/
def sortRel (col : String) (reverse : Bool) (r s : Row) : Prop :=
  (if reverse then keyLt (sortKey col r) (sortKey col s)
   else keyLt (sortKey col s) (sortKey col r)) = false

instance (col : String) (reverse : Bool) : DecidableRel (sortRel col reverse) :=
  fun r s => by unfold sortRel; infer_instance

/-- `sorted(rows, key=..., reverse=...)`: a stable sort with respect to a
total preorder, which determines it uniquely; modelled by a stable
insertion sort. -/
def pySortRows (col : String) (reverse : Bool) (rows : List Row) : List Row :=
  List.insertionSort (sortRel col reverse) rows

/-- `DataFrame.sort_by(col, reverse)`. -/
def DataFrame.sort_by (df : DataFrame) (col : String) (reverse : Bool) :
    Except String DataFrame :=
  if df.columns.contains col then
    Except.ok (DataFrame.ofRows (pySortRows col reverse df.rows))
  else Except.error ("Column '" ++ col ++ "' not found.")

/-! ### filters.py -/

/-- `in_bucket(val, rng, top_inclusive)`: non-null and within
`[low, high)`, or `[low, high]` when `top_inclusive`. -/
def in_bucket (val : Option Rat) (rng : Rat × Rat) (top_inclusive : Bool) : Bool :=
  match val with
  | none => false
  | some v =>
      if top_inclusive then decide (rng.1 ≤ v ∧ v ≤ rng.2)
      else decide (rng.1 ≤ v ∧ v < rng.2)

/-- The month-name dictionary of `month_to_int_or_any`. -/
def name_to_num : List (String × Int) :=
  [("jan", 1), ("january", 1),
   ("feb", 2), ("february", 2),
   ("mar", 3), ("march", 3),
   ("apr", 4), ("april", 4),
   ("may", 5),
   ("jun", 6), ("june", 6),
   ("jul", 7), ("july", 7),
   ("aug", 8), ("august", 8),
   ("sep", 9), ("sept", 9), ("september", 9),
   ("oct", 10), ("october", 10),
   ("nov", 11), ("november", 11),
   ("dec", 12), ("december", 12)]

/-- `month_to_int_or_any(m)`: `None`/empty → unconstrained; "any" →
unconstrained; a bare digit string → its value when in 1..12 else
unconstrained; a label ending in `)` and containing `(` → `int` of the
slice between the last `(` and the final `)`, unconstrained when that
raises; otherwise the month-name lookup. -/
def month_to_int_or_any (m : Option String) : Option Int :=
  match m with
  | none => none
  | some mstr =>
      if mstr = "" then none
      else
        let s := pyLower (pyStrip mstr)
        if s = "any" then none
        else if pyIsDigit s then
          let n : Int := (digitsToNat s.toList : Int)
          if 1 ≤ n ∧ n ≤ 12 then some n else none
        else if s.toList.contains '(' && pyEndsWith s ')' then
          let cs := s.toList
          let i := cs.length - 1 - cs.reverse.indexOf '('
          pyIntParse (String.mk ((cs.drop (i + 1)).dropLast))
        else name_to_num.lookup s

/-- Numeric view of a row field as handed to `in_bucket` by the
predicate.  A string value at one of the numeric columns would raise
`TypeError` inside `in_bucket` in the source; it is mapped to the
(row-rejecting) null case here, and no theorem exercises it. -/
def getNum (r : Row) (c : String) : Option Rat :=
  match r.get? c with
  | some (Value.int i) => some (i : Rat)
  | some (Value.float q) => some q
  | _ => none

/-- Python `row.get(col) != g` for a string constraint `g`: a missing
field, `None`, or a non-string value is simply unequal. -/
def strMismatch (rv : Option Value) (g : String) : Bool :=
  match rv with
  | some (Value.str s) => decide (s ≠ g)
  | _ => true

/-- The date-field parse inside the predicate's month/year step:
`y2, m2` are set only when the field is a string of length ≥ 7 whose
character at index 4 is `-` and whose first two `-`-separated parts are
digit strings. -/
def parseDateYM (ds : Option Value) : Option (Int × Int) :=
  match ds with
  | some (Value.str s) =>
      if s.toList.length ≥ 7 ∧ s.toList.get? 4 = some '-' then
        match pySplit s '-' with
        | p0 :: p1 :: _ =>
            if pyIsDigit p0 ∧ pyIsDigit p1 then
              some ((digitsToNat p0.toList : Int), (digitsToNat p1.toList : Int))
            else none
        | _ => none
      else none
  | _ => none

/-- `build_predicate(...)` applied to a row: the AND of the eight
optional constraints, each early-returning `False` on failure.  The
upper bound is inclusive for a popularity range ending within `1e-9` of
`100`, for dance/energy/liveness ranges ending within `1e-9` of `1`, and
always for tempo. -/
def build_predicate
    (pop_range : Option (Rat × Rat)) (genre subgenre : Option String)
    (dance_range energy_range tempo_range live_range : Option (Rat × Rat))
    (month year : Option Int) (row : Row) : Bool :=
  let top_pop : Bool :=
    match pop_range with
    | some rng => decide (|rng.2 - (100 : Rat)| < 1 / 1000000000)
    | none => false
  let top01 : Rat × Rat → Bool :=
    fun rng => decide (|rng.2 - (1 : Rat)| < 1 / 1000000000)
  if (match pop_range with
      | some rng => !(in_bucket (getNum row "track_popularity") rng top_pop)
      | none => false) then false
  else if (match genre with
      | some g => !g.isEmpty && strMismatch (row.get? "playlist_genre") g
      | none => false) then false
  else if (match subgenre with
      | some g => !g.isEmpty && strMismatch (row.get? "playlist_subgenre") g
      | none => false) then false
  else if (match dance_range with
      | some rng => !(in_bucket (getNum row "danceability") rng (top01 rng))
      | none => false) then false
  else if (match energy_range with
      | some rng => !(in_bucket (getNum row "energy") rng (top01 rng))
      | none => false) then false
  else if (match tempo_range with
      | some rng => !(in_bucket (getNum row "tempo") rng true)
      | none => false) then false
  else if (match live_range with
      | some rng => !(in_bucket (getNum row "liveness") rng (top01 rng))
      | none => false) then false
  else if month.isSome || year.isSome then
    let ym := parseDateYM (row.get? "track_album_release_date")
    let m2 : Option Int := ym.map Prod.snd
    let y2 : Option Int := ym.map Prod.fst
    if month.isSome && decide (m2 ≠ month) then false
    else if year.isSome && decide (y2 ≠ year) then false
    else true
  else true

/-! ### Supporting lemmas -/

/-- The head surviving `dropWhile p` fails `p`. -/
theorem dropWhile_head_false {α : Type} (p : α → Bool) (l : List α) {a : α} {t : List α}
    (h : l.dropWhile p = a :: t) : p a = false := by
  have h2 := List.head?_dropWhile_not p l
  rw [h] at h2
  simpa using h2

/-- `dropWhile` is idempotent. -/
theorem dropWhile_dropWhile {α : Type} (p : α → Bool) (l : List α) :
    (l.dropWhile p).dropWhile p = l.dropWhile p := by
  cases h : l.dropWhile p with
  | nil => rfl
  | cons a t =>
      rw [List.dropWhile_cons, dropWhile_head_false p l h]
      simp

/-- Stripping both ends is idempotent. -/
theorem pyStripList_idem (l : List Char) : pyStripList (pyStripList l) = pyStripList l := by
  have hx : (pyStripList l).dropWhile pyWhitespace = pyStripList l := by
    have hpre : pyStripList l <+: l.dropWhile pyWhitespace := by
      have h1 : ((l.dropWhile pyWhitespace).reverse.dropWhile pyWhitespace) <:+
          (l.dropWhile pyWhitespace).reverse := List.dropWhile_suffix pyWhitespace
      have h2 := (List.reverse_prefix).2 h1
      rwa [List.reverse_reverse] at h2
    cases h : pyStripList l with
    | nil => rfl
    | cons a t =>
        rw [h] at hpre
        obtain ⟨u, hu⟩ := hpre
        have ha : l.dropWhile pyWhitespace = a :: (t ++ u) := by
          rw [← hu]; rfl
        rw [List.dropWhile_cons, dropWhile_head_false pyWhitespace l ha]
        simp
  have hrev : (pyStripList l).reverse =
      (l.dropWhile pyWhitespace).reverse.dropWhile pyWhitespace := by
    show ((l.dropWhile pyWhitespace).reverse.dropWhile pyWhitespace).reverse.reverse = _
    rw [List.reverse_reverse]
  have hy : (pyStripList l).reverse.dropWhile pyWhitespace = (pyStripList l).reverse := by
    rw [hrev]
    exact dropWhile_dropWhile pyWhitespace _
  calc pyStripList (pyStripList l)
      = (((pyStripList l).dropWhile pyWhitespace).reverse.dropWhile pyWhitespace).reverse := rfl
    _ = ((pyStripList l).reverse.dropWhile pyWhitespace).reverse := by rw [hx]
    _ = (pyStripList l).reverse.reverse := by rw [hy]
    _ = pyStripList l := List.reverse_reverse _

/-- `str.strip()` is idempotent. -/
theorem pyStrip_idem (s : String) : pyStrip (pyStrip s) = pyStrip s := by
  show String.mk (pyStripList (pyStripList s.toList)) = String.mk (pyStripList s.toList)
  rw [pyStripList_idem]

/-! ### Claim theorems -/

/-- Claim C5: the tokenizer honours quoting — a delimiter inside quotes
is literal content, a doubled quote inside quotes emits one literal
quote, end of input flushes the accumulator; `a,"b,c",""` splits into
`["a", "b,c", ""]`, `"he said ""hi"""` into the single field
`he said "hi"`, and the empty line yields exactly one empty field. -/
theorem split_csv_line_contract :
    _split_csv_line "a,\"b,c\",\"\"" ',' = ["a", "b,c", ""] ∧
    _split_csv_line "\"he said \"\"hi\"\"\"" ',' = ["he said \"hi\""] ∧
    _split_csv_line "" ',' = [""] :=
  ⟨by decide, by decide, by decide⟩

/-- Claim C10: a table built from an empty row list has an empty schema,
so projecting any column list containing `c`, or sorting by `c`, fails
with the unknown-column error for every column name `c` — even one the
filtered-away rows originally had. -/
theorem empty_table_empty_schema (c : String) (reverse : Bool) :
    (DataFrame.ofRows ([] : List Row)).columns = [] ∧
    (DataFrame.ofRows ([] : List Row)).project [c] =
      Except.error ("Column '" ++ c ++ "' not found in dataset.") ∧
    (DataFrame.ofRows ([] : List Row)).sort_by c reverse =
      Except.error ("Column '" ++ c ++ "' not found.") := by
  refine ⟨rfl, ?_, ?_⟩
  · simp [DataFrame.project, DataFrame.ofRows, checkColumns, List.contains,
      Bind.bind, Except.bind]
  · simp [DataFrame.sort_by, DataFrame.ofRows, List.contains]

/-- Claim C4: the coercer's value is a pure function of the trimmed
token, applying first-match-wins order — null-alias set (case
insensitively) to Null, then optionally-minus-signed digit sequences to
Integer, then float parse to Float, else the trimmed token as String; in
particular `"007"` → Integer 7, `"1e3"` → Float 1000.0, `"NA"` → Null,
`""` → Null, and `"-"` is a String. -/
theorem coerce_decision_order :
    (∀ tok st, _coerce (pyStrip tok) st = _coerce tok st) ∧
    (∀ tok st, pyLower (pyStrip tok) ∈ NULLS → (_coerce tok st).2 = Value.null) ∧
    (∀ tok st, pyLower (pyStrip tok) ∉ NULLS → isIntToken (pyStrip tok) = true →
      (_coerce tok st).2 = Value.int (intOfToken (pyStrip tok))) ∧
    (∀ tok st q, pyLower (pyStrip tok) ∉ NULLS → isIntToken (pyStrip tok) = false →
      pyFloatParse (pyStrip tok) = some q → (_coerce tok st).2 = Value.float q) ∧
    (∀ tok st, pyLower (pyStrip tok) ∉ NULLS → isIntToken (pyStrip tok) = false →
      pyFloatParse (pyStrip tok) = none → (_coerce tok st).2 = Value.str (pyStrip tok)) ∧
    (_coerce "007" statsZero).2 = Value.int 7 ∧
    (_coerce "1e3" statsZero).2 = Value.float 1000 ∧
    (_coerce "NA" statsZero).2 = Value.null ∧
    (_coerce "n/a" statsZero).2 = Value.null ∧
    (_coerce "" statsZero).2 = Value.null ∧
    (_coerce "-" statsZero).2 = Value.str "-" := by
  refine ⟨?_, ?_, ?_, ?_, ?_, by decide, by decide, by decide, by decide, by decide, by decide⟩
  · intro tok st
    simp only [_coerce, pyStrip_idem]
  · intro tok st h
    simp [_coerce, h]
  · intro tok st h1 h2
    simp [_coerce, h1, h2]
  · intro tok st q h1 h2 h3
    simp [_coerce, h1, h2, h3]
  · intro tok st h1 h2 h3
    simp [_coerce, h1, h2, h3]

/-- Witness for C4: the string branch applied at the concrete token
`"spotify"`. -/
theorem coerce_decision_order_witness :
    (_coerce "spotify" statsZero).2 = Value.str (pyStrip "spotify") :=
  coerce_decision_order.2.2.2.2.1 "spotify" statsZero (by decide) (by decide) (by decide)

/-- Unfolding lemma for counter addition. -/
theorem Stats.add_def (a b : Stats) : a + b = Stats.add a b := rfl

/-- Adding the zero counter state changes nothing. -/
theorem Stats.add_zero (a : Stats) : a + statsZero = a := by
  ext <;> simp [Stats.add_def, Stats.add, statsZero]

/-- Counter addition is associative. -/
theorem Stats.add_assoc (a b c : Stats) : a + b + c = a + (b + c) := by
  ext <;> simp [Stats.add_def, Stats.add, Nat.add_assoc]

/-- `_coerce` only ever increments counters: its final counter state is
the initial one plus its own contribution, and its value result is
independent of the initial counters. -/
theorem coerce_stats_shift (tok : String) (st : Stats) :
    (_coerce tok st).1 = st + (_coerce tok statsZero).1 ∧
    (_coerce tok st).2 = (_coerce tok statsZero).2 := by
  by_cases h1 : pyLower (pyStrip tok) ∈ NULLS
  · constructor <;>
      simp [_coerce, h1, Stats.add_def, Stats.add, statsZero]
  · by_cases h2 : isIntToken (pyStrip tok)
    · constructor <;>
        simp [_coerce, h1, h2, Stats.add_def, Stats.add, statsZero]
    · cases h3 : pyFloatParse (pyStrip tok) <;> constructor <;>
        simp [_coerce, h1, h2, h3, Stats.add_def, Stats.add, statsZero]

/-- `coerceRow` shifts counters additively and its row result is
independent of the initial counters. -/
theorem coerceRow_shift (hs : List String) : ∀ (vs : List String) (st : Stats),
    (coerceRow hs vs st).1 = st + (coerceRow hs vs statsZero).1 ∧
    (coerceRow hs vs st).2 = (coerceRow hs vs statsZero).2 := by
  induction hs with
  | nil =>
      intro vs st
      cases vs <;> simp [coerceRow, Stats.add_zero]
  | cons h hs ih =>
      intro vs st
      cases vs with
      | nil => simp [coerceRow, Stats.add_zero]
      | cons v vs =>
          simp only [coerceRow]
          obtain ⟨hc1, hc2⟩ := coerce_stats_shift v st
          obtain ⟨hr1, _⟩ := ih vs (_coerce v st).1
          obtain ⟨hr1', hr2'⟩ := ih vs (_coerce v statsZero).1
          obtain ⟨hr1z, hr2z⟩ := ih vs statsZero
          constructor
          · rw [hr1, hc1, hr1']
            exact Stats.add_assoc st (_coerce v statsZero).1 (coerceRow hs vs statsZero).1
          · have h2 := (ih vs (_coerce v st).1).2
            rw [h2, hc2, hr2']

/-- `readCsvAux` shifts counters additively and its row result is
independent of the initial counters. -/
theorem readCsvAux_shift (header : List String) (delim : Char) (ls : List String) :
    ∀ (st : Stats),
    (readCsvAux header delim ls st).1 = st + (readCsvAux header delim ls statsZero).1 ∧
    (readCsvAux header delim ls st).2 = (readCsvAux header delim ls statsZero).2 := by
  induction ls with
  | nil => intro st; simp [readCsvAux, Stats.add_zero]
  | cons line rest ih =>
      intro st
      simp only [readCsvAux]
      by_cases hm :
          (_split_csv_line (rstripNewlines line) delim).length ≠ header.length
      · rw [if_pos hm, if_pos hm]
        obtain ⟨ih1, ih2⟩ := ih { st with malformed_rows := st.malformed_rows + 1 }
        obtain ⟨ih1', ih2'⟩ :=
          ih { statsZero with malformed_rows := statsZero.malformed_rows + 1 }
        constructor
        · rw [ih1, ih1']
          ext <;> simp [Stats.add_def, Stats.add, statsZero] <;> omega
        · rw [ih2, ih2']
      · rw [if_neg hm, if_neg hm]
        obtain ⟨hp1, hp2⟩ :=
          coerceRow_shift header (_split_csv_line (rstripNewlines line) delim) st
        set parts := _split_csv_line (rstripNewlines line) delim with hparts
        obtain ⟨ih1, ih2⟩ := ih
          { (coerceRow header parts st).1 with
            total_rows := (coerceRow header parts st).1.total_rows + 1 }
        obtain ⟨ih1', ih2'⟩ := ih
          { (coerceRow header parts statsZero).1 with
            total_rows := (coerceRow header parts statsZero).1.total_rows + 1 }
        constructor
        · rw [ih1, ih1', hp1]
          ext <;> simp [Stats.add_def, Stats.add, statsZero] <;> omega
        · rw [ih2, ih2', hp2]

/-- Claim C2 (amended): the statistics counters are module-global and
never reset by `read_csv`; a run's final counters are the counters it
started from plus that run's own contribution (so counters accumulate
across successive runs), while the parsed rows are independent of the
counter state. -/
theorem read_csv_stats_accumulate (lines : List String) (delim : Char) (st : Stats) :
    (read_csv lines delim st).1 = st + (read_csv lines delim statsZero).1 ∧
    (read_csv lines delim st).2 = (read_csv lines delim statsZero).2 := by
  cases lines with
  | nil => simp [read_csv, Stats.add_zero]
  | cons headerLine rest =>
      simpa [read_csv] using
        readCsvAux_shift (_split_csv_line (rstripNewlines headerLine) delim) delim rest st

/-- Claim C2 (counterexample): running the same one-row ingestion twice
in succession leaves different statistics after the second run than
running it once from the initial state — the counters observed after the
second run are not a function of the second run's input alone, so they
are not reset at the start of each run. -/
theorem ingestion_stats_not_reset :
    (read_csv ["h", "1"] ',' (read_csv ["h", "1"] ',' statsZero).1).1 ≠
      (read_csv ["h", "1"] ',' statsZero).1 := by decide

/-- Every value bound in an association list whose entries all lie in
1..12 is in 1..12. -/
theorem lookup_month_bound (l : List (String × Int))
    (h : ∀ p ∈ l, 1 ≤ p.2 ∧ p.2 ≤ 12) :
    ∀ s v, l.lookup s = some v → 1 ≤ v ∧ v ≤ 12 := by
  induction l with
  | nil => intro s v hv; simp [List.lookup] at hv
  | cons p l ih =>
      intro s v hv
      cases p with
      | mk k w =>
          by_cases hk : (s == k) = true
          · simp only [List.lookup, hk] at hv
            have hw : w = v := by simpa using hv
            subst hw
            exact h ⟨k, w⟩ (List.mem_cons_self _ _)
          · simp only [List.lookup, hk, Bool.false_eq_true] at hv
            exact ih (fun q hq => h q (List.mem_cons_of_mem _ hq)) s v hv

/-- Claim C8 (amended): the month selector parser returns the
unconstrained value on `None`, blank input and the `"any"` sentinel, and
whenever the normalized input is not a parenthesized label
(`... (n)`-shaped) its result is unconstrained or an integer in 1..12;
a parenthesized label, however, returns the integer between the last
`(` and the final `)` unchecked, e.g. `"x (13)"` yields 13. -/
theorem month_parser_fail_open :
    (∀ s, ((pyLower (pyStrip s)).toList.contains '(' &&
        pyEndsWith (pyLower (pyStrip s)) ')') = false →
      month_to_int_or_any (some s) = none ∨
        ∃ n, month_to_int_or_any (some s) = some n ∧ 1 ≤ n ∧ n ≤ 12) ∧
    month_to_int_or_any none = none ∧
    month_to_int_or_any (some "") = none ∧
    (∀ s, pyLower (pyStrip s) = "any" → month_to_int_or_any (some s) = none) ∧
    month_to_int_or_any (some "x (13)") = some 13 := by
  refine ⟨?_, rfl, by decide, ?_, by decide⟩
  · intro s hpar
    by_cases h0 : s = ""
    · subst h0; left; rfl
    · simp only [month_to_int_or_any, if_neg h0]
      by_cases h2 : pyLower (pyStrip s) = "any"
      · rw [if_pos h2]; left; rfl
      · rw [if_neg h2]
        by_cases h3 : pyIsDigit (pyLower (pyStrip s)) = true
        · rw [if_pos h3]
          by_cases h4 : 1 ≤ (digitsToNat (pyLower (pyStrip s)).toList : Int) ∧
              (digitsToNat (pyLower (pyStrip s)).toList : Int) ≤ 12
          · rw [if_pos h4]
            exact Or.inr ⟨_, rfl, h4.1, h4.2⟩
          · rw [if_neg h4]; left; rfl
        · rw [if_neg h3]
          rw [hpar]
          simp only [Bool.false_eq_true, if_false]
          cases hv : (name_to_num.lookup (pyLower (pyStrip s))) with
          | none => left; rfl
          | some v =>
              right
              exact ⟨v, rfl, lookup_month_bound name_to_num (by decide) _ v hv⟩
  · intro s h2
    by_cases h0 : s = ""
    · subst h0; rfl
    · simp only [month_to_int_or_any, if_neg h0]
      rw [if_pos h2]

/-- Witness for C8 (amended): the non-parenthesized input `"march"`. -/
theorem month_parser_fail_open_witness :
    month_to_int_or_any (some "march") = none ∨
      ∃ n, month_to_int_or_any (some "march") = some n ∧ 1 ≤ n ∧ n ≤ 12 :=
  month_parser_fail_open.1 "march" (by decide)

/-- Claim C8 (counterexample): on input `"x (13)"` the parser returns
13, which is neither the unconstrained value nor an integer in 1..12 —
the parenthesized-label branch performs no range check. -/
theorem month_parser_range_violated :
    ¬ (∀ m : Option String, month_to_int_or_any m = none ∨
        ∃ n, month_to_int_or_any m = some n ∧ 1 ≤ n ∧ n ≤ 12) := by
  intro h
  rcases h (some "x (13)") with h1 | ⟨n, hn, hlo, hhi⟩
  · exact absurd h1 (by decide)
  · rw [show month_to_int_or_any (some "x (13)") = some 13 from by decide] at hn
    injection hn with hn'
    omega

/-- The date shape asserted by the specification for the predicate's
date constraint: a 4-digit year at positions 0-3, a `-` at position 4,
and a 2-digit month at positions 5-6.  (Stated from the spec's words,
for comparison with the looser check the code performs.) -/
def specDateShape (s : String) : Bool :=
  match s.toList with
  | y1 :: y2 :: y3 :: y4 :: '-' :: m1 :: m2 :: _ =>
      y1.isDigit && y2.isDigit && y3.isDigit && y4.isDigit && m1.isDigit && m2.isDigit
  | _ => false

/-- Claim C6 (counterexample): the row whose date field is the malformed
string `"12-4-567"` — not parseable as a 4-digit year, `-`, and a
2-digit month at positions 5-6 — nevertheless satisfies a predicate
with the month constraint 4: the code's looser check (length ≥ 7, `-`
at index 4, first two dash-separated parts digits) parses it as year 12,
month 4, so the row is not fail-closed as claimed. -/
theorem date_fail_closed_counterexample :
    specDateShape "12-4-567" = false ∧
    build_predicate none none none none none none none (some 4) none
      [("track_album_release_date", Value.str "12-4-567")] = true :=
  ⟨by decide, by decide⟩

/-- An if-then-else with a `false` then-branch and a false else-branch
is false. -/
theorem ite_false_chain {c : Prop} [Decidable c] {x : Bool} (h : x = false) :
    (if c then false else x) = false := by
  split
  · rfl
  · exact h

/-- Claim C6 (amended): the date constraint is fail-closed with respect
to the code's own parse: whenever a month or year constraint is set and
the row's date field is `None`, missing, not a string, or a string
failing the code's check (length ≥ 7, `-` at index 4, first two
`-`-separated parts digit strings), the predicate rejects the row
regardless of every other constraint. -/
theorem date_fail_closed (pop_range : Option (Rat × Rat)) (genre subgenre : Option String)
    (dance_range energy_range tempo_range live_range : Option (Rat × Rat))
    (month year : Option Int) (row : Row)
    (hconstr : month.isSome = true ∨ year.isSome = true)
    (hdate : parseDateYM (row.get? "track_album_release_date") = none) :
    build_predicate pop_range genre subgenre dance_range energy_range tempo_range
      live_range month year row = false := by
  simp only [build_predicate, hdate, Option.map_none']
  apply ite_false_chain; apply ite_false_chain; apply ite_false_chain
  apply ite_false_chain; apply ite_false_chain; apply ite_false_chain
  apply ite_false_chain
  rw [if_pos (show (month.isSome || year.isSome) = true by
    rcases hconstr with h | h <;> simp [h])]
  rcases month with _ | m
  · rcases year with _ | y
    · simp at hconstr
    · simp
  · simp

/-- Witness for C6 (amended): a row with `release_date = None` and month
constraint 4 is excluded. -/
theorem date_fail_closed_witness :
    build_predicate none none none none none none none (some 4) none
      [("track_album_release_date", Value.null)] = false :=
  date_fail_closed none none none none none none none (some 4) none
    [("track_album_release_date", Value.null)] (Or.inl rfl) (by decide)

/-- Claim C7: `in_bucket` admits exactly the non-null values in
`[low, high)`, or `[low, high]` when marked top-inclusive — in
particular `(90,100)` top-inclusive admits 100 and non-top-inclusive
rejects it — and the predicate builder marks the popularity range
top-inclusive iff its upper bound is within `1e-9` of 100, the
danceability (0-1 domain) range iff within `1e-9` of 1, and the tempo
range always. -/
theorem in_bucket_contract :
    (∀ (rng : Rat × Rat) (top : Bool), in_bucket none rng top = false) ∧
    (∀ (v lo hi : Rat), in_bucket (some v) (lo, hi) false = decide (lo ≤ v ∧ v < hi)) ∧
    (∀ (v lo hi : Rat), in_bucket (some v) (lo, hi) true = decide (lo ≤ v ∧ v ≤ hi)) ∧
    in_bucket (some 100) (90, 100) true = true ∧
    in_bucket (some 100) (90, 100) false = false ∧
    (∀ (rng : Rat × Rat) (row : Row),
      build_predicate (some rng) none none none none none none none none row =
        in_bucket (getNum row "track_popularity") rng
          (decide (|rng.2 - (100 : Rat)| < 1 / 1000000000))) ∧
    (∀ (rng : Rat × Rat) (row : Row),
      build_predicate none none none (some rng) none none none none none row =
        in_bucket (getNum row "danceability") rng
          (decide (|rng.2 - (1 : Rat)| < 1 / 1000000000))) ∧
    (∀ (rng : Rat × Rat) (row : Row),
      build_predicate none none none none none (some rng) none none none row =
        in_bucket (getNum row "tempo") rng true) := by
  refine ⟨?_, ?_, ?_, by decide, by decide, ?_, ?_, ?_⟩
  · intro rng top; rfl
  · intro v lo hi; rfl
  · intro v lo hi; rfl
  · intro rng row
    cases h : in_bucket (getNum row "track_popularity") rng
        (decide (|rng.2 - (100 : Rat)| < 1 / 1000000000)) <;>
      simp [build_predicate, h, -one_div]
  · intro rng row
    cases h : in_bucket (getNum row "danceability") rng
        (decide (|rng.2 - (1 : Rat)| < 1 / 1000000000)) <;>
      simp [build_predicate, h, -one_div]
  · intro rng row
    cases h : in_bucket (getNum row "tempo") rng true <;>
      simp [build_predicate, h]

/-- First-occurrence deduplication stated directly from the claim: keep
a row iff no earlier row of the original list has the same canonical
key, preserving the original order.  (`prev` is the already-scanned
prefix.) -/
def firstOccAux (prev : List Row) : List Row → List Row
  | [] => []
  | r :: rest =>
      if prev.any (fun p => decide (canonRow p = canonRow r)) then
        firstOccAux (prev ++ [r]) rest
      else r :: firstOccAux (prev ++ [r]) rest

/-- The first occurrence of every duplicate group, in original order. -/
def firstOccurrences (rows : List Row) : List Row := firstOccAux [] rows

/-- `removeDupAux` computes first-occurrence deduplication whenever the
`seen` key set matches the canonical keys of the scanned prefix. -/
theorem removeDupAux_eq_firstOccAux :
    ∀ (rows : List Row) (seen prev : List Row) (st : Stats),
    (∀ k, k ∈ seen ↔ ∃ p ∈ prev, canonRow p = k) →
    (removeDupAux seen st rows).2 = firstOccAux prev rows := by
  intro rows
  induction rows with
  | nil => intro seen prev st hinv; rfl
  | cons r rest ih =>
      intro seen prev st hinv
      by_cases hmem : canonRow r ∈ seen
      · have hany : (prev.any (fun p => decide (canonRow p = canonRow r))) = true := by
          obtain ⟨p, hp, hpk⟩ := (hinv (canonRow r)).1 hmem
          exact List.any_eq_true.2 ⟨p, hp, by simp [hpk]⟩
        simp only [removeDupAux, if_pos hmem, firstOccAux, hany, if_true]
        refine ih seen (prev ++ [r]) _ ?_
        intro k
        constructor
        · intro hk
          obtain ⟨p, hp, hpk⟩ := (hinv k).1 hk
          exact ⟨p, List.mem_append_left _ hp, hpk⟩
        · rintro ⟨p, hp, hpk⟩
          rcases List.mem_append.1 hp with hp1 | hp1
          · exact (hinv k).2 ⟨p, hp1, hpk⟩
          · have : p = r := by simpa using hp1
            subst this
            rw [← hpk]
            exact hmem
      · have hany : (prev.any (fun p => decide (canonRow p = canonRow r))) = false := by
          rw [List.any_eq_false]
          intro p hp
          simp only [decide_eq_true_eq]
          intro hpk
          exact hmem ((hinv (canonRow r)).2 ⟨p, hp, hpk⟩)
        simp only [removeDupAux, if_neg hmem, firstOccAux, hany, Bool.false_eq_true, if_false]
        congr 1
        refine ih (canonRow r :: seen) (prev ++ [r]) st ?_
        intro k
        constructor
        · intro hk
          rcases List.mem_cons.1 hk with hk1 | hk1
          · exact ⟨r, List.mem_append_right _ (List.mem_singleton_self r), hk1.symm⟩
          · obtain ⟨p, hp, hpk⟩ := (hinv k).1 hk1
            exact ⟨p, List.mem_append_left _ hp, hpk⟩
        · rintro ⟨p, hp, hpk⟩
          rcases List.mem_append.1 hp with hp1 | hp1
          · exact List.mem_cons_of_mem _ ((hinv k).2 ⟨p, hp1, hpk⟩)
          · have : p = r := by simpa using hp1
            subst this
            rw [← hpk]
            exact List.mem_cons_self _ _

/-- The output of `removeDupAux` avoids the `seen` keys and has pairwise
distinct canonical keys. -/
theorem removeDupAux_pairwise :
    ∀ (rows : List Row) (seen : List Row) (st : Stats),
    (∀ r ∈ (removeDupAux seen st rows).2, canonRow r ∉ seen) ∧
    (removeDupAux seen st rows).2.Pairwise (fun a b => canonRow a ≠ canonRow b) := by
  intro rows
  induction rows with
  | nil => intro seen st; exact ⟨fun r hr => (List.not_mem_nil r hr).elim, List.Pairwise.nil⟩
  | cons r rest ih =>
      intro seen st
      by_cases hmem : canonRow r ∈ seen
      · simpa only [removeDupAux, if_pos hmem] using ih seen _
      · obtain ⟨ihmem, ihpw⟩ := ih (canonRow r :: seen) st
        simp only [removeDupAux, if_neg hmem]
        constructor
        · intro x hx
          rcases List.mem_cons.1 hx with hx1 | hx1
          · subst hx1; exact hmem
          · exact fun hk => ihmem x hx1 (List.mem_cons_of_mem _ hk)
        · refine List.Pairwise.cons ?_ ihpw
          intro x hx hk
          exact ihmem x hx (by rw [← hk]; exact List.mem_cons_self _ _)

/-- Deduplicating a list with pairwise distinct canonical keys, none of
them already seen, returns it unchanged (counters included). -/
theorem removeDupAux_of_pairwise :
    ∀ (rows : List Row) (seen : List Row) (st : Stats),
    rows.Pairwise (fun a b => canonRow a ≠ canonRow b) →
    (∀ r ∈ rows, canonRow r ∉ seen) →
    removeDupAux seen st rows = (st, rows) := by
  intro rows
  induction rows with
  | nil => intro seen st _ _; rfl
  | cons r rest ih =>
      intro seen st hpw hseen
      have hmem : canonRow r ∉ seen := hseen r (List.mem_cons_self _ _)
      simp only [removeDupAux, if_neg hmem]
      rw [ih (canonRow r :: seen) st ((List.pairwise_cons.1 hpw).2) ?_]
      · intro x hx
        intro hk
        rcases List.mem_cons.1 hk with hk1 | hk1
        · exact (List.pairwise_cons.1 hpw).1 x hx hk1.symm
        · exact hseen x (List.mem_cons_of_mem _ hx) hk1

/-- Claim C9: the deduplicator is idempotent — a second pass over its
own output removes nothing — and a single pass keeps exactly the first
occurrence of each duplicate group (rows with equal canonical
sorted-items keys), in original order; both hold for every starting
counter state. -/
theorem remove_duplicates_idempotent (rows : List Row) (st st' : Stats) :
    (remove_duplicates (remove_duplicates rows st).2 st').2 = (remove_duplicates rows st).2 ∧
    (remove_duplicates rows st).2 = firstOccurrences rows := by
  constructor
  · obtain ⟨_, hpw⟩ := removeDupAux_pairwise rows [] st
    have := removeDupAux_of_pairwise (remove_duplicates rows st).2 [] st' hpw
      (by intro r _ hk; cases hk)
    rw [remove_duplicates, this]
  · exact removeDupAux_eq_firstOccAux rows [] [] st (by simp)

/-- Binding a successful `Except` computation applies the continuation. -/
theorem except_bind_ok {ε α β : Type} (a : α) (f : α → Except ε β) :
    (Except.ok a >>= f : Except ε β) = f a := rfl

/-- Binding a failed `Except` computation propagates the error. -/
theorem except_bind_error {ε α β : Type} (e : ε) (f : α → Except ε β) :
    ((Except.error e : Except ε α) >>= f) = Except.error e := rfl

/-- A row is in some group after `insertGroup` iff it was in some group
before or is the inserted row. -/
theorem mem_insertGroup (k : Value) (r x : Row) :
    ∀ (gs : List (Value × List Row)),
    (∃ gr ∈ insertGroup k r gs, x ∈ gr.2) ↔ (∃ gr ∈ gs, x ∈ gr.2) ∨ x = r := by
  intro gs
  induction gs with
  | nil => simp [insertGroup]
  | cons g gs ih =>
      cases g with
      | mk k' rs =>
          by_cases hk : valueEqPy k' k = true
          · simp only [insertGroup, if_pos hk]
            simp only [List.mem_cons, List.mem_append, List.mem_singleton]
            constructor
            · rintro ⟨gr, hgr | hgr, hx⟩
              · subst hgr
                rw [show ((k', rs ++ [r]) : Value × List Row).2 = rs ++ [r] from rfl,
                  List.mem_append, List.mem_singleton] at hx
                rcases hx with hx | hx
                · exact Or.inl ⟨⟨k', rs⟩, Or.inl rfl, hx⟩
                · exact Or.inr hx
              · exact Or.inl ⟨gr, Or.inr hgr, hx⟩
            · rintro (⟨gr, hgr | hgr, hx⟩ | hx)
              · subst hgr
                exact ⟨⟨k', rs ++ [r]⟩, Or.inl rfl, List.mem_append_left _ hx⟩
              · exact ⟨gr, Or.inr hgr, hx⟩
              · exact ⟨⟨k', rs ++ [r]⟩, Or.inl rfl, List.mem_append_right _ (by simp [hx])⟩
          · simp only [insertGroup, if_neg hk]
            simp only [List.mem_cons]
            constructor
            · rintro ⟨gr, hgr | hgr, hx⟩
              · exact Or.inl ⟨gr, Or.inl hgr, hx⟩
              · rcases (ih).1 ⟨gr, hgr, hx⟩ with ⟨gr', hgr', hx'⟩ | hx'
                · exact Or.inl ⟨gr', Or.inr hgr', hx'⟩
                · exact Or.inr hx'
            · rintro (⟨gr, hgr | hgr, hx⟩ | hx)
              · exact ⟨gr, Or.inl hgr, hx⟩
              · obtain ⟨gr', hgr', hx'⟩ := (ih).2 (Or.inl ⟨gr, hgr, hx⟩)
                exact ⟨gr', Or.inr hgr', hx'⟩
              · obtain ⟨gr', hgr', hx'⟩ := (ih).2 (Or.inr hx)
                exact ⟨gr', Or.inr hgr', hx'⟩

/-- When every row has the group key, `buildGroups` succeeds and its
groups contain exactly the accumulator's rows plus the input rows. -/
theorem buildGroups_ok (groupCol : String) :
    ∀ (rows : List Row) (acc : List (Value × List Row)),
    (∀ r ∈ rows, (r.get? groupCol).isSome = true) →
    ∃ gs, buildGroups groupCol rows acc = Except.ok gs ∧
      ∀ x : Row, (∃ gr ∈ gs, x ∈ gr.2) ↔ (∃ gr ∈ acc, x ∈ gr.2) ∨ x ∈ rows := by
  intro rows
  induction rows with
  | nil => intro acc _; exact ⟨acc, rfl, by simp⟩
  | cons r rest ih =>
      intro acc h
      obtain ⟨v, hv⟩ := Option.isSome_iff_exists.1 (h r (List.mem_cons_self _ _))
      have hE : r.getE groupCol = Except.ok v := by simp [Row.getE, hv]
      obtain ⟨gs, hgs, hmem⟩ :=
        ih (insertGroup v r acc) (fun x hx => h x (List.mem_cons_of_mem _ hx))
      refine ⟨gs, ?_, ?_⟩
      · show (r.getE groupCol >>= fun k => buildGroups groupCol rest (insertGroup k r acc)) =
          Except.ok gs
        rw [hE, except_bind_ok]
        exact hgs
      · intro x
        rw [hmem x, mem_insertGroup]
        simp only [List.mem_cons]
        rw [or_assoc]

/-- When every row has the aggregation column, `numericValues` succeeds,
and its result is nonempty iff some row holds a numeric value there. -/
theorem numericValues_ok (c : String) :
    ∀ (rows : List Row),
    (∀ r ∈ rows, (r.get? c).isSome = true) →
    ∃ vs, numericValues c rows = Except.ok vs ∧
      (vs ≠ [] ↔ ∃ r ∈ rows, ∃ v, r.get? c = some v ∧ isNumeric v = true) := by
  intro rows
  induction rows with
  | nil => intro _; exact ⟨[], rfl, by simp⟩
  | cons r rest ih =>
      intro h
      obtain ⟨v, hv⟩ := Option.isSome_iff_exists.1 (h r (List.mem_cons_self _ _))
      have hE : r.getE c = Except.ok v := by simp [Row.getE, hv]
      obtain ⟨vs, hvs, hiff⟩ := ih (fun x hx => h x (List.mem_cons_of_mem _ hx))
      have hrun : numericValues c (r :: rest) =
          Except.ok (if isNumeric v then v :: vs else vs) := by
        show (r.getE c >>= fun w => numericValues c rest >>= fun ws =>
          pure (if isNumeric w then w :: ws else ws)) = _
        rw [hE, except_bind_ok, hvs, except_bind_ok]
        rfl
      cases hn : isNumeric v with
      | false =>
          refine ⟨vs, by rw [hrun, hn]; simp, ?_⟩
          rw [hiff]
          simp only [List.mem_cons]
          constructor
          · rintro ⟨x, hx, w, hw, hnum⟩
            exact ⟨x, Or.inr hx, w, hw, hnum⟩
          · rintro ⟨x, hx | hx, w, hw, hnum⟩
            · subst hx
              rw [hv] at hw
              injection hw with hw'
              subst hw'
              rw [hn] at hnum
              cases hnum
            · exact ⟨x, hx, w, hw, hnum⟩
      | true =>
          refine ⟨v :: vs, by rw [hrun, hn]; simp, ?_⟩
          constructor
          · intro _
            exact ⟨r, List.mem_cons_self _ _, v, hv, hn⟩
          · intro _
            exact List.cons_ne_nil v vs

/-- With an unsupported aggregation kind, a group's aggregation either
yields the Null aggregate (no numeric contributors) or fails with
`Unsupported aggregation` (at least one numeric contributor). -/
theorem aggColumns_single (grp : List Row) (c f : String)
    (hf : f ∉ (["avg", "sum", "max", "min", "count"] : List String))
    (hc : ∀ r ∈ grp, (r.get? c).isSome = true) :
    (aggColumns grp [(c, f)] = Except.ok [(c, Value.null)] ∧
      ¬ ∃ r ∈ grp, ∃ v, r.get? c = some v ∧ isNumeric v = true) ∨
    (aggColumns grp [(c, f)] = Except.error ("Unsupported aggregation: " ++ f) ∧
      ∃ r ∈ grp, ∃ v, r.get? c = some v ∧ isNumeric v = true) := by
  obtain ⟨vs, hvs, hiff⟩ := numericValues_ok c grp hc
  have happly : applyAgg f vs = Except.error ("Unsupported aggregation: " ++ f) := by
    have h1 : f ≠ "avg" := fun hh => hf (by simp [hh])
    have h2 : f ≠ "sum" := fun hh => hf (by simp [hh])
    have h3 : f ≠ "max" := fun hh => hf (by simp [hh])
    have h4 : f ≠ "min" := fun hh => hf (by simp [hh])
    have h5 : f ≠ "count" := fun hh => hf (by simp [hh])
    simp [applyAgg, h1, h2, h3, h4, h5]
  by_cases hempty : vs = []
  · left
    constructor
    · show (numericValues c grp >>= fun ws =>
        if ws.isEmpty then
          aggColumns grp [] >>= fun tail => pure ((c, Value.null) :: tail)
        else applyAgg f ws >>= fun w =>
          aggColumns grp [] >>= fun tail => pure ((c, w) :: tail)) = _
      rw [hvs, except_bind_ok, hempty]
      rfl
    · intro hex
      exact (hempty ▸ hiff.2 hex) rfl
  · right
    constructor
    · show (numericValues c grp >>= fun ws =>
        if ws.isEmpty then
          aggColumns grp [] >>= fun tail => pure ((c, Value.null) :: tail)
        else applyAgg f ws >>= fun w =>
          aggColumns grp [] >>= fun tail => pure ((c, w) :: tail)) = _
      rw [hvs, except_bind_ok]
      rw [if_neg (by simpa [List.isEmpty_iff] using hempty)]
      rw [happly, except_bind_error]
    · exact hiff.1 hempty

/-- With an unsupported aggregation kind and a single aggregated column,
the group-by result loop fails with `Unsupported aggregation` exactly
when some group has a numeric contributor in that column, and succeeds
otherwise. -/
theorem groupResults_single (groupCol c f : String)
    (hf : f ∉ (["avg", "sum", "max", "min", "count"] : List String)) :
    ∀ (gs : List (Value × List Row)),
    (∀ g ∈ gs, ∀ r ∈ g.2, (r.get? c).isSome = true) →
    (groupResults groupCol [(c, f)] gs = Except.error ("Unsupported aggregation: " ++ f) ∧
      ∃ g ∈ gs, ∃ r ∈ g.2, ∃ v, r.get? c = some v ∧ isNumeric v = true) ∨
    (∃ rs, groupResults groupCol [(c, f)] gs = Except.ok rs ∧
      ¬ ∃ g ∈ gs, ∃ r ∈ g.2, ∃ v, r.get? c = some v ∧ isNumeric v = true) := by
  intro gs
  induction gs with
  | nil => intro _; right; exact ⟨[], rfl, by simp⟩
  | cons g gs ih =>
      intro h
      rcases aggColumns_single g.2 c f hf (h g (List.mem_cons_self _ _)) with
        ⟨hok, hnex⟩ | ⟨herr, hex⟩
      · rcases ih (fun g' hg' => h g' (List.mem_cons_of_mem _ hg')) with
          ⟨herr', hex'⟩ | ⟨rs, hok', hnex'⟩
        · left
          constructor
          · show (aggColumns g.2 [(c, f)] >>= fun aggs =>
              groupResults groupCol [(c, f)] gs >>= fun rest =>
              pure ((((groupCol, g.1) : String × Value) :: aggs) :: rest)) = _
            rw [hok, except_bind_ok, herr', except_bind_error]
          · obtain ⟨g', hg', hr⟩ := hex'
            exact ⟨g', List.mem_cons_of_mem _ hg', hr⟩
        · right
          refine ⟨(((groupCol, g.1) : String × Value) :: [(c, Value.null)]) :: rs, ?_, ?_⟩
          · show (aggColumns g.2 [(c, f)] >>= fun aggs =>
              groupResults groupCol [(c, f)] gs >>= fun rest =>
              pure ((((groupCol, g.1) : String × Value) :: aggs) :: rest)) = _
            rw [hok, except_bind_ok, hok', except_bind_ok]
            rfl
          · rintro ⟨g', hg', hr⟩
            rcases List.mem_cons.1 hg' with hg1 | hg1
            · subst hg1; exact hnex hr
            · exact hnex' ⟨g', hg1, hr⟩
      · left
        constructor
        · show (aggColumns g.2 [(c, f)] >>= fun aggs =>
            groupResults groupCol [(c, f)] gs >>= fun rest =>
            pure ((((groupCol, g.1) : String × Value) :: aggs) :: rest)) = _
          rw [herr, except_bind_error]
        · obtain ⟨r, hr, hv⟩ := hex
          exact ⟨g, List.mem_cons_self _ _, r, hr, hv⟩

/-- Claim C3 (amended): with an aggregation kind outside
{avg, sum, max, min, count} for a column present in every row (and a
group key present in every row), `group_by` fails with
`Unsupported aggregation` if and only if some row holds a numeric
(int/float) value in that column; when no row does, every group
aggregates the column to Null and the call succeeds.  The failure is
atomic: the error value carries no partial table. -/
theorem group_by_unsupported_agg (df : DataFrame) (groupCol c f : String)
    (hf : f ∉ (["avg", "sum", "max", "min", "count"] : List String))
    (hg : ∀ r ∈ df.rows, (r.get? groupCol).isSome = true)
    (hc : ∀ r ∈ df.rows, (r.get? c).isSome = true) :
    (df.group_by groupCol [(c, f)] = Except.error ("Unsupported aggregation: " ++ f)) ↔
      ∃ r ∈ df.rows, ∃ v, r.get? c = some v ∧ isNumeric v = true := by
  obtain ⟨gs, hgs, hmem⟩ := buildGroups_ok groupCol df.rows [] hg
  have hmem' : ∀ x : Row, (∃ gr ∈ gs, x ∈ gr.2) ↔ x ∈ df.rows := by
    intro x
    rw [hmem x]
    simp
  have hc' : ∀ g ∈ gs, ∀ r ∈ g.2, (r.get? c).isSome = true :=
    fun g hgmem r hr => hc r ((hmem' r).1 ⟨g, hgmem, hr⟩)
  have hgb : df.group_by groupCol [(c, f)] =
      (groupResults groupCol [(c, f)] gs >>= fun res => pure (DataFrame.ofRows res)) := by
    show (buildGroups groupCol df.rows [] >>= fun groups =>
      groupResults groupCol [(c, f)] groups >>= fun res => pure (DataFrame.ofRows res)) = _
    rw [hgs, except_bind_ok]
  rcases groupResults_single groupCol c f hf gs hc' with ⟨herr, hex⟩ | ⟨rs, hok, hnex⟩
  · rw [hgb, herr, except_bind_error]
    constructor
    · intro _
      obtain ⟨g, hgm, r, hr, hv⟩ := hex
      exact ⟨r, (hmem' r).1 ⟨g, hgm, hr⟩, hv⟩
    · intro _
      rfl
  · rw [hgb, hok, except_bind_ok]
    constructor
    · intro hcontra
      exact Except.noConfusion hcontra
    · rintro ⟨r, hrmem, v, hv, hnum⟩
      obtain ⟨g, hgm, hr⟩ := (hmem' r).2 hrmem
      exact absurd ⟨g, hgm, r, hr, v, hv, hnum⟩ hnex

/-- Witness for C3 (amended): one group with a numeric value does fail
with `Unsupported aggregation: median`. -/
theorem group_by_unsupported_agg_witness :
    DataFrame.group_by (DataFrame.ofRows [[("g", Value.int 1), ("s", Value.int 5)]])
      "g" [("s", "median")] = Except.error ("Unsupported aggregation: " ++ "median") :=
  (group_by_unsupported_agg (DataFrame.ofRows [[("g", Value.int 1), ("s", Value.int 5)]])
      "g" "s" "median" (by decide) (by decide) (by decide)).2
    ⟨[("g", Value.int 1), ("s", Value.int 5)], by decide, Value.int 5, by decide, by decide⟩

/-- Claim C3 (counterexample): `"median"` is not a supported kind, yet
grouping a table whose aggregated column holds only a string succeeds
with a Null aggregate instead of failing with `UnsupportedAggregation` —
the unknown-kind check is only reached when a group has at least one
numeric contributor. -/
theorem group_by_unknown_agg_counterexample :
    "median" ∉ (["avg", "sum", "max", "min", "count"] : List String) ∧
    DataFrame.group_by (DataFrame.ofRows [[("g", Value.int 1), ("s", Value.str "x")]])
        "g" [("s", "median")] =
      Except.ok ⟨[[("g", Value.int 1), ("s", Value.null)]], ["g", "s"]⟩ :=
  ⟨by decide, by decide⟩

/-- The rows of a successful table operation (empty for an error). -/
def resultRows (e : Except String DataFrame) : List Row :=
  match e with
  | Except.ok df => df.rows
  | Except.error _ => []

/-- The claim's null-placement order, ascending direction: once a row is
Null in the sort column, every later row is too (Nulls form a suffix,
i.e. every Null appears after every non-null). -/
def nullAfter (col : String) (r s : Row) : Prop :=
  Row.getV r col = Value.null → Row.getV s col = Value.null

/-- Null placement, descending direction: Nulls form a prefix (every
Null appears before every non-null). -/
def nullBefore (col : String) (r s : Row) : Prop :=
  Row.getV s col = Value.null → Row.getV r col = Value.null

/-- A value of string kind at the sort column (or Null). -/
def strOrNull (v : Value) : Bool :=
  match v with
  | Value.int _ => false
  | Value.float _ => false
  | _ => true

/-- A numeric value at the sort column (or Null). -/
def numOrNull (v : Value) : Bool :=
  match v with
  | Value.str _ => false
  | _ => true

/-- Ascending: a row that may stay before another while being Null at
the column forces the other to be Null too (the Null flag dominates the
key comparison). -/
theorem sortRel_asc_null (col : String) (a b : Row)
    (hrel : sortRel col false a b) (ha : Row.getV a col = Value.null) :
    Row.getV b col = Value.null := by
  by_contra hb
  simp [sortRel, keyLt, sortKey, ha, hb] at hrel

/-- Ascending: a row that must move after another which is Null at the
column is itself Null. -/
theorem not_sortRel_asc_null (col : String) (a b : Row)
    (hrel : ¬ sortRel col false a b) (hb : Row.getV b col = Value.null) :
    Row.getV a col = Value.null := by
  by_contra ha
  simp [sortRel, keyLt, sortKey, ha, hb] at hrel

/-- Descending: a row that may stay before another which is Null at the
column is itself Null. -/
theorem sortRel_desc_null (col : String) (a b : Row)
    (hrel : sortRel col true a b) (hb : Row.getV b col = Value.null) :
    Row.getV a col = Value.null := by
  by_contra ha
  simp [sortRel, keyLt, sortKey, ha, hb] at hrel

/-- Descending: a row that must move after another while being Null at
the column forces the other to be Null too. -/
theorem not_sortRel_desc_null (col : String) (a b : Row)
    (hrel : ¬ sortRel col true a b) (ha : Row.getV a col = Value.null) :
    Row.getV b col = Value.null := by
  by_contra hb
  simp [sortRel, keyLt, sortKey, ha, hb] at hrel

/-- Inserting into an ascending-sorted list keeps Nulls as a suffix. -/
theorem orderedInsert_nullAfter (col : String) (a : Row) :
    ∀ (l : List Row), l.Pairwise (nullAfter col) →
    (List.orderedInsert (sortRel col false) a l).Pairwise (nullAfter col) := by
  intro l
  induction l with
  | nil => intro _; simp [List.orderedInsert, nullAfter]
  | cons b l ih =>
      intro hpw
      obtain ⟨hb, hl⟩ := List.pairwise_cons.1 hpw
      by_cases hrel : sortRel col false a b
      · rw [List.orderedInsert, if_pos hrel]
        refine List.Pairwise.cons ?_ hpw
        intro x hx ha
        have hbnull := sortRel_asc_null col a b hrel ha
        rcases List.mem_cons.1 hx with hx1 | hx1
        · subst hx1; exact hbnull
        · exact hb x hx1 hbnull
      · rw [List.orderedInsert, if_neg hrel]
        refine List.Pairwise.cons ?_ (ih hl)
        intro x hx hbnull
        rcases (List.mem_orderedInsert _).1 hx with hx1 | hx1
        · rw [hx1]; exact not_sortRel_asc_null col a b hrel hbnull
        · exact hb x hx1 hbnull

/-- Inserting into a descending-sorted list keeps Nulls as a prefix. -/
theorem orderedInsert_nullBefore (col : String) (a : Row) :
    ∀ (l : List Row), l.Pairwise (nullBefore col) →
    (List.orderedInsert (sortRel col true) a l).Pairwise (nullBefore col) := by
  intro l
  induction l with
  | nil => intro _; simp [List.orderedInsert, nullBefore]
  | cons b l ih =>
      intro hpw
      obtain ⟨hb, hl⟩ := List.pairwise_cons.1 hpw
      by_cases hrel : sortRel col true a b
      · rw [List.orderedInsert, if_pos hrel]
        refine List.Pairwise.cons ?_ hpw
        intro x hx hxnull
        rcases List.mem_cons.1 hx with hx1 | hx1
        · exact sortRel_desc_null col a b hrel (hx1 ▸ hxnull)
        · exact sortRel_desc_null col a b hrel (hb x hx1 hxnull)
      · rw [List.orderedInsert, if_neg hrel]
        refine List.Pairwise.cons ?_ (ih hl)
        intro x hx hxnull
        rcases (List.mem_orderedInsert _).1 hx with hx1 | hx1
        · rw [hx1] at hxnull
          exact not_sortRel_desc_null col a b hrel hxnull
        · exact hb x hx1 hxnull

/-- The ascending sort leaves Nulls as a suffix. -/
theorem insertionSort_nullAfter (col : String) :
    ∀ (rows : List Row),
    (List.insertionSort (sortRel col false) rows).Pairwise (nullAfter col) := by
  intro rows
  induction rows with
  | nil => simp [List.insertionSort]
  | cons r rest ih =>
      rw [List.insertionSort]
      exact orderedInsert_nullAfter col r _ ih

/-- The descending sort leaves Nulls as a prefix. -/
theorem insertionSort_nullBefore (col : String) :
    ∀ (rows : List Row),
    (List.insertionSort (sortRel col true) rows).Pairwise (nullBefore col) := by
  intro rows
  induction rows with
  | nil => simp [List.insertionSort]
  | cons r rest ih =>
      rw [List.insertionSort]
      exact orderedInsert_nullBefore col r _ ih

/-- Claim C1 (amended): for a schema column present in every row and of
homogeneous comparable kind (numeric-or-Null, or string-or-Null — the
inputs on which the source's comparisons are defined), `sort_by` places
the Null rows after all non-null rows when ascending, but *before* all
non-null rows when descending: `reverse=True` reverses the whole key
order, Null flag included. -/
theorem sort_by_null_placement (df : DataFrame) (col : String)
    (hcol : df.columns.contains col = true)
    (hkeys : ∀ r ∈ df.rows, (r.get? col).isSome = true)
    (hcomp : (∀ r ∈ df.rows, numOrNull (Row.getV r col) = true) ∨
             (∀ r ∈ df.rows, strOrNull (Row.getV r col) = true)) :
    (resultRows (df.sort_by col false)).Pairwise (nullAfter col) ∧
    (resultRows (df.sort_by col true)).Pairwise (nullBefore col) := by
  have hmem : col ∈ df.columns := by simpa using hcol
  have h1 : df.sort_by col false =
      Except.ok (DataFrame.ofRows (pySortRows col false df.rows)) := by
    simp [DataFrame.sort_by, hmem]
  have h2 : df.sort_by col true =
      Except.ok (DataFrame.ofRows (pySortRows col true df.rows)) := by
    simp [DataFrame.sort_by, hmem]
  rw [h1, h2]
  exact ⟨insertionSort_nullAfter col df.rows, insertionSort_nullBefore col df.rows⟩

/-- Witness for C1 (amended): a concrete numeric-or-Null column. -/
theorem sort_by_null_placement_witness :
    (resultRows (DataFrame.sort_by (DataFrame.ofRows
        [[("a", Value.int 1)], [("a", Value.null)], [("a", Value.int 0)]]) "a" false)).Pairwise
      (nullAfter "a") ∧
    (resultRows (DataFrame.sort_by (DataFrame.ofRows
        [[("a", Value.int 1)], [("a", Value.null)], [("a", Value.int 0)]]) "a" true)).Pairwise
      (nullBefore "a") :=
  sort_by_null_placement
    (DataFrame.ofRows [[("a", Value.int 1)], [("a", Value.null)], [("a", Value.int 0)]])
    "a" (by decide) (by decide) (Or.inl (by decide))

/-- Claim C1 (counterexample): sorting a two-row table by `"a"` with
`descending = True` returns the Null row *first*, before the non-null
row — the sorted output violates the nulls-always-last property the
claim asserts for both directions. -/
theorem sort_by_desc_nulls_first :
    DataFrame.sort_by (DataFrame.ofRows [[("a", Value.null)], [("a", Value.int 0)]]) "a" true =
      Except.ok ⟨[[("a", Value.null)], [("a", Value.int 0)]], ["a"]⟩ ∧
    ¬ (resultRows (DataFrame.sort_by (DataFrame.ofRows
        [[("a", Value.null)], [("a", Value.int 0)]]) "a" true)).Pairwise (nullAfter "a") := by
  refine ⟨by decide, ?_⟩
  intro h
  rw [show resultRows (DataFrame.sort_by (DataFrame.ofRows
      [[("a", Value.null)], [("a", Value.int 0)]]) "a" true) =
      [[("a", Value.null)], [("a", Value.int 0)]] from by decide] at h
  have h1 := (List.pairwise_cons.1 h).1 [("a", Value.int 0)] (List.mem_cons_self _ _)
  have h2 := h1 (by decide)
  exact absurd h2 (by decide)
